import Mathlib

/-!
Verification development for the signal-extraction core of the
`polkadot-news` repository (file `polkadot_community_analyzer.py` and the
correlation part of `polkadot_governance_integration.py`).

The Python code is shallowly embedded: dictionaries become structures,
`Counter` objects become association lists kept in insertion order,
Python floats become `ℚ` (the formulas involve only small decimal
constants), counts become `ℕ`/`ℤ`, and the library call
`datetime.fromisoformat` is abstracted as a parameter
`parse : String → Option PyDateTime` supplied by each theorem.  Fallible
code returns `Except PyErr _`.  Text processing is modelled on the ASCII
fragment of Python regular expressions (`\w` = letter, digit or
underscore; `\s` = whitespace), which covers every input the claims
mention.
-/

/-- ASCII model of the Python regex class `\w`: letters, digits, underscore. -/
def isWordChar (c : Char) : Bool :=
  c.isAlpha || c.isDigit || c = '_'

/-- ASCII model of the Python regex class `\s`. -/
def pySpace (c : Char) : Bool :=
  c.isWhitespace

/-- ASCII model of Python `str.lower` on a single character. -/
def lowerChar (c : Char) : Char :=
  if 'A' ≤ c ∧ c ≤ 'Z' then Char.ofNat (c.toNat + 32) else c

/-- Python `text.lower()` (ASCII fragment). -/
def pyLower (s : String) : String :=
  ⟨s.data.map lowerChar⟩

/-- Helper for the tag regex: split a character list at the first `>`.
Returns the characters strictly before it and the remainder strictly
after it, or `none` when no `>` occurs. -/
def splitAtGt : List Char → Option (List Char × List Char)
  | [] => none
  | c :: t =>
    if c = '>' then some ([], t)
    else (splitAtGt t).map (fun p => (c :: p.1, p.2))

/-- Fuel-driven scanner for `re.sub(r'<[^>]+>', ' ', content)`
(`analyze_post_content`): every leftmost non-overlapping occurrence of a
`<`, one or more non-`>` characters, and a `>` is replaced by a single
space.  The fuel is an upper bound on the number of characters still to
scan; each step consumes at least one, so fuel `cs.length` is enough. -/
def stripTagsAux : Nat → List Char → List Char
  | 0, cs => cs
  | _ + 1, [] => []
  | f + 1, c :: t =>
    if c = '<' then
      match splitAtGt t with
      | some (inside, after) =>
        if inside = [] then c :: stripTagsAux f t else ' ' :: stripTagsAux f after
      | none => c :: stripTagsAux f t
    else c :: stripTagsAux f t

/-- `clean_content = re.sub(r'<[^>]+>', ' ', content)` from
`analyze_post_content`. -/
def strip_html_tags (s : String) : String :=
  ⟨stripTagsAux s.data.length s.data⟩

/-- Fuel-driven scanner for `re.findall(r'@(\w+)', clean_content)`
(`analyze_post_content`): each `@` followed by a maximal nonempty run of
word characters yields that run as a mention. -/
def mentionsAux : Nat → List Char → List String
  | 0, _ => []
  | _ + 1, [] => []
  | f + 1, c :: t =>
    if c = '@' then
      let run := t.takeWhile isWordChar
      if run = [] then mentionsAux f t
      else ⟨run⟩ :: mentionsAux f (t.dropWhile isWordChar)
    else mentionsAux f t

/-- The list of `@username` mentions found in (already tag-stripped) text,
in order of occurrence. -/
def extract_mentions (s : String) : List String :=
  mentionsAux s.data.length s.data

/-- `re.sub(r'[^\w\s]', ' ', text)` from `extract_keywords`: every
character that is neither a word character nor whitespace becomes a
space. -/
def pySubNonWord (cs : List Char) : List Char :=
  cs.map (fun c => if isWordChar c || pySpace c then c else ' ')

/-- Fuel-driven whitespace tokenizer.  `word_tokenize` is applied in
`extract_keywords` only after every non-word, non-space character has
been replaced by a space, and on such text it degenerates to splitting
on whitespace. -/
def wordsAux : Nat → List Char → List String
  | 0, _ => []
  | _ + 1, [] => []
  | f + 1, c :: t =>
    if pySpace c then wordsAux f t
    else ⟨c :: t.takeWhile (fun x => !pySpace x)⟩ :: wordsAux f (t.dropWhile (fun x => !pySpace x))

/-- `tokens = word_tokenize(re.sub(r'[^\w\s]', ' ', text.lower()))` from
`extract_keywords`. -/
def tokensOf (text : String) : List String :=
  let cs := pySubNonWord (pyLower text).data
  wordsAux cs.length cs

/-- The NLTK English stopword corpus, as loaded by
`stopwords.words('english')` in `extract_keywords`.  Entries containing
an apostrophe are omitted: they can never match, because every token
produced by `tokensOf` consists of word characters only. -/
def nltk_stopwords : List String :=
  ["i", "me", "my", "myself", "we", "our", "ours", "ourselves", "you",
   "your", "yours", "yourself", "yourselves", "he", "him", "his",
   "himself", "she", "her", "hers", "herself", "it", "its", "itself",
   "they", "them", "their", "theirs", "themselves", "what", "which",
   "who", "whom", "this", "that", "these", "those", "am", "is", "are",
   "was", "were", "be", "been", "being", "have", "has", "had", "having",
   "do", "does", "did", "doing", "a", "an", "the", "and", "but", "if",
   "or", "because", "as", "until", "while", "of", "at", "by", "for",
   "with", "about", "against", "between", "into", "through", "during",
   "before", "after", "above", "below", "to", "from", "up", "down",
   "in", "out", "on", "off", "over", "under", "again", "further",
   "then", "once", "here", "there", "when", "where", "why", "how",
   "all", "any", "both", "each", "few", "more", "most", "other", "some",
   "such", "no", "nor", "not", "only", "own", "same", "so", "than",
   "too", "very", "s", "t", "can", "will", "just", "don", "should",
   "now", "d", "ll", "m", "o", "re", "ve", "y", "ain", "aren",
   "couldn", "didn", "doesn", "hadn", "hasn", "haven", "isn", "ma",
   "mightn", "mustn", "needn", "shan", "shouldn", "wasn", "weren",
   "won", "wouldn"]

/-- The fixed allowlist `technical_terms` from `extract_keywords`. -/
def technical_terms : List String :=
  ["polkadot", "kusama", "parachain", "parathread", "substrate",
   "governance", "referendum", "proposal", "validator", "nominator",
   "collator", "staking", "xcm", "opengl", "relay", "ausd", "chain",
   "wallet", "token", "dotsama", "web3", "blockchain"]

/-- The first filter of `extract_keywords`:
`tokens = [word for word in tokens if word not in stop_words and len(word) > 3]`. -/
def filtered_tokens (text : String) : List String :=
  (tokensOf text).filter (fun w => ¬ w ∈ nltk_stopwords ∧ 3 < w.length)

/-- The tokens whose counts `extract_keywords` adds to the keyword
counter: of the filtered tokens, those with
`word in technical_terms or len(word) > 4`. -/
def counted_keywords (text : String) : List String :=
  (filtered_tokens text).filter (fun w => w ∈ technical_terms ∨ 4 < w.length)

/-- The number of occurrences of `w` added to `self.keywords[w]` by one
call `extract_keywords text`. -/
def keywordCount (text w : String) : Nat :=
  (counted_keywords text).count w

/-- The keyword occurrences contributed by one post body, following
`analyze_post_content`: strip HTML tags, then run `extract_keywords` on
the cleaned text. -/
def post_keywords (body : String) : List String :=
  counted_keywords (strip_html_tags body)

/-- The mentions contributed by one post body (`analyze_post_content`). -/
def post_mentions (body : String) : List String :=
  extract_mentions (strip_html_tags body)

/-- A Python value that can sit in a topic's `last_posted_at` field.
`Topic.get("last_posted_at", "")` never yields absence, so the default
`""` is represented by `str ""`; `none` models JSON `null`. -/
inductive PyVal
  | none
  | str (s : String)
  | int (n : ℤ)
deriving DecidableEq

/-- The one uncaught exception the embedded code can produce: calling
`.replace` on a value that is not a string raises `AttributeError`,
which the `except (ValueError, TypeError)` clause does not catch. -/
inductive PyErr
  | attributeError
deriving DecidableEq

/-- An abstract parsed `datetime`: the calendar day (used by the
timeline day-floor) and the POSIX timestamp in seconds (used by
`.timestamp()`). -/
structure PyDateTime where
  day : ℤ
  ts : ℚ
deriving DecidableEq

/-- Python `s.replace("Z", "+00:00")`: every occurrence of `Z` is
replaced (for an ISO-8601 string the only parsable position is a
trailing one, but the code replaces all). -/
def pyReplaceZ (s : String) : String :=
  ⟨s.data.flatMap (fun c => if c = 'Z' then "+00:00".data else [c])⟩

/-- `recency_boost = max(1, 30 - recency_boost) / 30` from
`_identify_hot_topics`, as a function of `days_since_last_post`. -/
def recency_factor (d : ℚ) : ℚ :=
  max 1 (30 - d) / 30

/-- The `try` block of `_identify_hot_topics` computing the recency
boost of one topic.  `parse` abstracts `datetime.fromisoformat`
(returning `Option.none` when that call raises `ValueError`), `now` is
`datetime.now().timestamp()`.  A nonempty string is `.replace`d and
parsed; parse failure is caught and yields the neutral `0.5`; falsy
values (`""`, `null`, `0`) take the `else` branch and yield `0.5`; a
truthy non-string has no `.replace` method, raising `AttributeError`
past the `except (ValueError, TypeError)` clause. -/
def recency_boost (parse : String → Option PyDateTime) (now : ℚ) :
    PyVal → Except PyErr ℚ
  | .str s =>
    if s = "" then .ok (1 / 2)
    else
      match parse (pyReplaceZ s) with
      | Option.some dt => .ok (recency_factor ((now - dt.ts) / 86400))
      | Option.none => .ok (1 / 2)
  | .none => .ok (1 / 2)
  | .int n =>
    if n = 0 then .ok (1 / 2)
    else .error .attributeError

/-- A forum topic as consumed by `_identify_hot_topics` (the fields the
method reads, with `.get` defaults applied). -/
structure Topic where
  id : ℕ
  title : String
  pinned : Bool
  views : ℤ
  posts_count : ℤ
  last_posted_at : PyVal
  created_at : String
deriving DecidableEq

/-- `heat_score = (views * 0.3) + (posts_count * 5 * 0.5) +
(posts_count * recency_boost * 0.2)`, with the decimal float literals
read as exact rationals. -/
def heat_formula (views posts_count : ℤ) (recency : ℚ) : ℚ :=
  views * (3 / 10) + posts_count * 5 * (1 / 2) + posts_count * recency * (1 / 5)

/-- One entry of the `hot_topics` list built by `_identify_hot_topics`. -/
structure HotTopic where
  id : ℕ
  title : String
  views : ℤ
  posts_count : ℤ
  last_posted_at : PyVal
  created_at : String
  heat_score : ℚ
  url : String
deriving DecidableEq

/-- The dictionary appended for one (non-pinned) topic. -/
def topicEntry (parse : String → Option PyDateTime) (now : ℚ) (t : Topic) :
    Except PyErr HotTopic :=
  (recency_boost parse now t.last_posted_at).map fun r =>
    { id := t.id
      title := t.title
      views := t.views
      posts_count := t.posts_count
      last_posted_at := t.last_posted_at
      created_at := t.created_at
      heat_score := heat_formula t.views t.posts_count r
      url := "https://forum.polkadot.network/t/" ++ toString t.id }

/-- The relation under which `List.insertionSort` computes exactly what
Python's stable `list.sort(key=key, reverse=True)` computes: `a` may
come no later than `b` iff the key of `a` is at least the key of `b`.
(`insertionSort` inserts an earlier element before every later element
with an equal key, which is stable descending order.) -/
def keyGE {α β : Type} [LE β] (key : α → β) (a b : α) : Prop :=
  key b ≤ key a

instance {α β : Type} [LinearOrder β] (key : α → β) : DecidableRel (keyGE key) :=
  fun a b => inferInstanceAs (Decidable (key b ≤ key a))

instance {α β : Type} [LinearOrder β] (key : α → β) : IsTotal α (keyGE key) :=
  ⟨fun a b => le_total (key b) (key a)⟩

instance {α β : Type} [LinearOrder β] (key : α → β) : IsTrans α (keyGE key) :=
  ⟨fun _ _ _ h h' => le_trans h' h⟩

/-- The sort relation of `hot_topics.sort(key=lambda x: x["heat_score"],
reverse=True)`. -/
abbrev heatGE : HotTopic → HotTopic → Prop :=
  keyGE HotTopic.heat_score

/-- The entry-building loop of `_identify_hot_topics` over the
(already pinned-filtered) topics, in input order; the first topic whose
recency computation raises aborts the whole method. -/
def build_entries (parse : String → Option PyDateTime) (now : ℚ) :
    List Topic → Except PyErr (List HotTopic)
  | [] => .ok []
  | t :: ts =>
    match topicEntry parse now t with
    | .error e => .error e
    | .ok entry => (build_entries parse now ts).map (fun es => entry :: es)

/-- `_identify_hot_topics`: empty input returns `[]`; otherwise pinned
topics are skipped, each remaining topic produces an entry, the entries
are sorted by heat score descending with Python's stable `sort`, and
the first 50 are returned. -/
def identify_hot_topics (parse : String → Option PyDateTime) (now : ℚ)
    (topics : List Topic) : Except PyErr (List HotTopic) :=
  if topics = [] then .ok []
  else
    (build_entries parse now (topics.filter (fun t => !t.pinned))).map
      fun entries => (entries.insertionSort heatGE).take 50

/-- `Counter` lookup with default `0` (`self.mentions.get(u, 0)`). -/
def counterGet : List (String × ℕ) → String → ℕ
  | [], _ => 0
  | (k, n) :: t, u => if k = u then n else counterGet t u

/-- One entry of the `influential_users` list. -/
structure InfluentialUser where
  username : String
  mention_count : ℕ
  post_count : ℕ
  influence_score : ℕ
deriving DecidableEq

/-- Sort relation of the influential-users stable descending sort. -/
abbrev influenceGE : InfluentialUser → InfluentialUser → Prop :=
  keyGE InfluentialUser.influence_score

/-- `enum` is a legal iteration order of the Python set
`set(list(self.mentions.keys()) + list(self.user_activity.keys()))`:
some duplicate-free enumeration of the union of the two key sets.  (CPython
iterates a `str` set in hash order, randomized per process, so no single
order can be assumed.) -/
def isSetEnum (enum : List String) (mentions user_activity : List (String × ℕ)) : Prop :=
  enum.Nodup ∧
    ∀ u, u ∈ enum ↔ (u ∈ mentions.map Prod.fst ∨ u ∈ user_activity.map Prod.fst)

/-- The loop body of `_identify_influential_users`: for each username in
the set iteration order, `influence_score = mention_count * 3 +
post_count`, and only positive scores are appended. -/
def influential_candidates (enum : List String)
    (mentions user_activity : List (String × ℕ)) : List InfluentialUser :=
  enum.filterMap fun u =>
    let m := counterGet mentions u
    let p := counterGet user_activity u
    if 0 < m * 3 + p then
      Option.some ⟨u, m, p, m * 3 + p⟩
    else
      Option.none

/-- `_identify_influential_users`: candidates in set iteration order,
stable descending sort by influence score, top 50. -/
def identify_influential_users (enum : List String)
    (mentions user_activity : List (String × ℕ)) : List InfluentialUser :=
  ((influential_candidates enum mentions user_activity).insertionSort
    influenceGE).take 50

/-- A forum post as consumed by the extraction and timeline code: the
fields read are `username`, `cooked` (HTML body) and `created_at`. -/
structure Post where
  username : Option String
  cooked : String
  created_at : Option String
deriving DecidableEq

/-- The day of each post that carries a valid timestamp, in post order
(the `timestamps` list of `_analyze_activity_timeline`, floored to the
day as `series.dt.floor('D')` does).  A missing `created_at`, the falsy
`""`, or a string `parse` rejects (a `ValueError` of
`datetime.fromisoformat`, caught by the `except` clause) contributes
nothing. -/
def post_valid_days (parse : String → Option PyDateTime) (posts : List Post) :
    List ℤ :=
  posts.filterMap fun p =>
    match p.created_at with
    | Option.none => Option.none
    | Option.some s =>
      if s = "" then Option.none
      else (parse (pyReplaceZ s)).map PyDateTime.day

/-- `_analyze_activity_timeline`: `None` when the post batch is empty or
no post has a parsable timestamp; otherwise one `(day, count)` pair per
distinct day, ascending by day (`value_counts().sort_index()`). -/
def analyze_activity_timeline (parse : String → Option PyDateTime)
    (posts : List Post) : Option (List (ℤ × ℕ)) :=
  if posts = [] then Option.none
  else
    let ds := post_valid_days parse posts
    if ds = [] then Option.none
    else
      Option.some ((ds.dedup.insertionSort (· ≤ ·)).map fun d => (d, ds.count d))

/-- The decoded call of a governance proposal
(`ref["data"]["proposal"]["decodedCall"]`); `args` values are already
stringified, as the f-string interpolation does. -/
structure DecodedCall where
  sec : String
  method : String
  args : List (String × String)
deriving DecidableEq

/-- `proposal_text = f"{section} {method}"` followed by
`proposal_text += f" {key} {value}"` for each argument pair. -/
def proposal_text (d : DecodedCall) : String :=
  d.args.foldl (fun acc kv => acc ++ " " ++ kv.1 ++ " " ++ kv.2)
    (d.sec ++ " " ++ d.method)

/-- A referendum as consumed by the correlation matcher: its index and,
when both `"proposal" in ref["data"]` and `"decodedCall"` are present,
the decoded call. -/
structure Referendum where
  index : ℕ
  decodedCall : Option DecodedCall
deriving DecidableEq

/-- One entry of `keyword_matches` in `generate_integrated_report`. -/
structure KeywordMatch where
  keyword : String
  referendum_id : ℕ
  matched_text : String
deriving DecidableEq

/-- Python substring containment `sub in s`. -/
def strIn (sub s : String) : Bool :=
  decide (sub.data <:+: s.data)

/-- The `keyword_matches` loop of `generate_integrated_report`: for each
referendum carrying a decoded call (outer loop) and each trending
keyword (inner loop), emit a match iff
`keyword.lower() in proposal_text.lower()`. -/
def keyword_matches (keywords : List String) (refs : List Referendum) :
    List KeywordMatch :=
  refs.foldr
    (fun ref acc =>
      (match ref.decodedCall with
       | Option.none => []
       | Option.some d =>
         keywords.filterMap fun k =>
           if strIn (pyLower k) (pyLower (proposal_text d)) then
             Option.some ⟨k, ref.index, proposal_text d⟩
           else
             Option.none) ++ acc)
    []

/-- The report fragment for keyword correlations: an explicit
no-correlation sentence when the match list is empty, one bullet line
per match otherwise. -/
def keyword_correlation_report (ms : List KeywordMatch) : String :=
  if ms = [] then
    "No trending keyword was found in active governance proposals.\n"
  else
    ms.foldl
      (fun acc m =>
        acc ++ "- **" ++ m.keyword ++ "** found in Referendum #" ++
          toString m.referendum_id ++ ": " ++ m.matched_text ++ "\n")
      ""

/-- `Counter`-style increment on an insertion-ordered association list. -/
def bumpCounter : List (String × ℕ) → String → List (String × ℕ)
  | [], k => [(k, 1)]
  | (k', n) :: t, k =>
    if k' = k then (k', n + 1) :: t else (k', n) :: bumpCounter t k

/-- `self.mentions`: mention occurrences accumulated over the post batch
(`analyze_post_content` on each post body). -/
def mentions_counter (posts : List Post) : List (String × ℕ) :=
  posts.foldl (fun acc p => (post_mentions p.cooked).foldl bumpCounter acc) []

/-- `self.user_activity`: posts per username (`fetch_topic_details`). -/
def user_activity_counter (posts : List Post) : List (String × ℕ) :=
  posts.foldl
    (fun acc p =>
      match p.username with
      | Option.some u => bumpCounter acc u
      | Option.none => acc)
    []

/-- The derived entities of one `analyze` run that the claims are about
(hot topics, influential users, activity timeline, and the
`analysis_date` stamp that `analyze` writes into its `metrics` from
`datetime.now()`).  The remaining entries of `analysis_results`
(category activity, active users, trending keywords, popular tags,
governance discussions) are further pure functions of the same batch. -/
structure AnalysisResults where
  hot_topics : List HotTopic
  influential_users : List InfluentialUser
  activity_timeline : Option (List (ℤ × ℕ))
  analysis_date : ℚ
deriving DecidableEq

/-- `analyze`: `{}` (here `Option.none`) when no topics or no posts were
collected; otherwise the derived entities of the run.  `now` is the run
timestamp, `enum` the set iteration order used by
`_identify_influential_users`. -/
def analyze (parse : String → Option PyDateTime) (now : ℚ) (enum : List String)
    (topics : List Topic) (posts : List Post) :
    Except PyErr (Option AnalysisResults) :=
  if topics = [] ∨ posts = [] then .ok Option.none
  else
    (identify_hot_topics parse now topics).map fun ht =>
      Option.some
        { hot_topics := ht
          influential_users :=
            identify_influential_users enum (mentions_counter posts)
              (user_activity_counter posts)
          activity_timeline := analyze_activity_timeline parse posts
          analysis_date := now }

/-- The post body of the keyword-extraction scenario in the spec. -/
def scenario_body : String :=
  "<p>Check @alice and @bob re the <b>treasury</b> proposal</p>"

/-! ## Shared lemmas -/

/-- Inserting into a sorted-by-key list commutes with filtering on a key
value: the skipped elements all have strictly larger keys, so an element
is inserted in front of every element of equal key that was already
present. -/
theorem orderedInsert_filter_key {α β : Type} [DecidableEq β] [LinearOrder β]
    (key : α → β) (q : β) (a : α) (l : List α) :
    (l.orderedInsert (keyGE key) a).filter (fun e => key e = q) =
      if key a = q then a :: l.filter (fun e => key e = q)
      else l.filter (fun e => key e = q) := by
  induction l with
  | nil =>
    by_cases h : key a = q <;> simp [List.orderedInsert, h]
  | cons b t ih =>
    rw [List.orderedInsert]
    by_cases hab : keyGE key a b
    · rw [if_pos hab]
      by_cases ha : key a = q <;> by_cases hb : key b = q <;>
        simp [List.filter_cons, ha, hb]
    · rw [if_neg hab]
      have hba : key a < key b := lt_of_not_le (fun hle => hab hle)
      by_cases hb : key b = q
      · have ha : ¬ key a = q := by
          intro ha; rw [ha, hb] at hba; exact lt_irrefl q hba
        simp [List.filter_cons, hb, ha, ih]
      · by_cases ha : key a = q <;> simp [List.filter_cons, hb, ha, ih]

/-- Stability of the descending key sort: restricting the sorted list to
any one key value reproduces the restriction of the input, in input
order. -/
theorem insertionSort_filter_key {α β : Type} [DecidableEq β] [LinearOrder β]
    (key : α → β) (q : β) (l : List α) :
    (l.insertionSort (keyGE key)).filter (fun e => key e = q) =
      l.filter (fun e => key e = q) := by
  induction l with
  | nil => rfl
  | cons a t ih =>
    rw [List.insertionSort, orderedInsert_filter_key, ih]
    by_cases ha : key a = q <;> simp [List.filter_cons, ha]

/-- The recency factor is strictly positive for every day count. -/
theorem recency_factor_pos (d : ℚ) : 0 < recency_factor d := by
  unfold recency_factor
  have := le_max_left (1 : ℚ) (30 - d)
  linarith

/-- Whenever the recency computation returns normally, the returned
boost is strictly positive (it is `0.5` or a positive factor). -/
theorem recency_boost_ok_pos (parse : String → Option PyDateTime) (now : ℚ)
    (v : PyVal) (r : ℚ) (h : recency_boost parse now v = .ok r) : 0 < r := by
  cases v with
  | none =>
    simp only [recency_boost, Except.ok.injEq] at h
    rw [← h]; norm_num
  | str s =>
    simp only [recency_boost] at h
    split at h
    · simp only [Except.ok.injEq] at h; rw [← h]; norm_num
    · split at h
      · simp only [Except.ok.injEq] at h; rw [← h]; exact recency_factor_pos _
      · simp only [Except.ok.injEq] at h; rw [← h]; norm_num
  | int n =>
    simp only [recency_boost] at h
    split at h
    · simp only [Except.ok.injEq] at h; rw [← h]; norm_num
    · cases h

/-- The heat formula is non-negative on non-negative counts and a
non-negative recency factor. -/
theorem heat_formula_nonneg (v p : ℤ) (r : ℚ) (hv : 0 ≤ v) (hp : 0 ≤ p)
    (hr : 0 ≤ r) : 0 ≤ heat_formula v p r := by
  unfold heat_formula
  have hv2 : (0 : ℚ) ≤ (v : ℚ) := by exact_mod_cast hv
  have hp2 : (0 : ℚ) ≤ (p : ℚ) := by exact_mod_cast hp
  have h1 : (0 : ℚ) ≤ (v : ℚ) * (3 / 10) := mul_nonneg hv2 (by norm_num)
  have h2 : (0 : ℚ) ≤ (p : ℚ) * 5 * (1 / 2) :=
    mul_nonneg (mul_nonneg hp2 (by norm_num)) (by norm_num)
  have h3 : (0 : ℚ) ≤ (p : ℚ) * r * (1 / 5) :=
    mul_nonneg (mul_nonneg hp2 hr) (by norm_num)
  linarith

/-- Every entry produced by the entry-building loop comes from a topic
of its input list. -/
theorem build_entries_mem (parse : String → Option PyDateTime) (now : ℚ) :
    ∀ (ts : List Topic) (es : List HotTopic), build_entries parse now ts = .ok es →
      ∀ e ∈ es, ∃ t ∈ ts, topicEntry parse now t = .ok e := by
  intro ts
  induction ts with
  | nil =>
    intro es h e he
    simp only [build_entries, Except.ok.injEq] at h
    rw [← h] at he
    cases he
  | cons t ts ih =>
    intro es h e he
    simp only [build_entries] at h
    cases hte : topicEntry parse now t with
    | error err => rw [hte] at h; cases h
    | ok entry =>
      rw [hte] at h
      cases hbe : build_entries parse now ts with
      | error err => rw [hbe] at h; simp only [Except.map] at h; cases h
      | ok es2 =>
        rw [hbe] at h
        simp only [Except.map, Except.ok.injEq] at h
        rw [← h] at he
        rcases List.mem_cons.mp he with rfl | he2
        · exact ⟨t, List.mem_cons_self t ts, hte⟩
        · obtain ⟨t2, ht2, hte2⟩ := ih es2 hbe e he2
          exact ⟨t2, List.mem_cons_of_mem _ ht2, hte2⟩

/-- A successful per-topic entry carries the heat formula applied to the
values of the topic and the recency boost the topic received. -/
theorem topicEntry_ok_heat (parse : String → Option PyDateTime) (now : ℚ)
    (t : Topic) (e : HotTopic) (h : topicEntry parse now t = .ok e) :
    ∃ r, recency_boost parse now t.last_posted_at = .ok r ∧
      e.heat_score = heat_formula t.views t.posts_count r ∧
      e.views = t.views ∧ e.posts_count = t.posts_count := by
  cases hrb : recency_boost parse now t.last_posted_at with
  | error err => rw [topicEntry, hrb] at h; simp only [Except.map] at h; cases h
  | ok r =>
    rw [topicEntry, hrb] at h
    simp only [Except.map, Except.ok.injEq] at h
    exact ⟨r, rfl, by rw [← h], by rw [← h], by rw [← h]⟩

/-- A username with a positive counter value is one of the counter keys. -/
theorem counterGet_pos_mem (l : List (String × ℕ)) (u : String)
    (h : 0 < counterGet l u) : u ∈ l.map Prod.fst := by
  induction l with
  | nil => simp [counterGet] at h
  | cons kv t ih =>
    rw [counterGet] at h
    by_cases hk : kv.1 = u
    · simp [hk]
    · rw [if_neg hk] at h
      simp [ih h]

/-- Unfolding of the correlation loop over one referendum. -/
theorem keyword_matches_cons (kws : List String) (r : Referendum)
    (rs : List Referendum) :
    keyword_matches kws (r :: rs) =
      (match r.decodedCall with
       | Option.none => []
       | Option.some d =>
         kws.filterMap fun k =>
           if strIn (pyLower k) (pyLower (proposal_text d)) then
             Option.some ⟨k, r.index, proposal_text d⟩
           else
             Option.none) ++ keyword_matches kws rs := rfl

/-- An empty keyword list produces no keyword matches at all. -/
theorem keyword_matches_nil_left :
    ∀ refs : List Referendum, keyword_matches [] refs = [] := by
  intro refs
  induction refs with
  | nil => rfl
  | cons r rs ih =>
    rw [keyword_matches_cons]
    cases hd : r.decodedCall <;> simp [ih]

/-- Characterization of the emitted matches: exactly the
keyword-referendum pairs whose lowercased keyword occurs in the
lowercased composed proposal text of a decoded call. -/
theorem keyword_matches_mem (keywords : List String) :
    ∀ (refs : List Referendum) (k : String) (i : ℕ) (text : String),
      (⟨k, i, text⟩ : KeywordMatch) ∈ keyword_matches keywords refs ↔
        (k ∈ keywords ∧ ∃ r ∈ refs, r.index = i ∧
          ∃ d, r.decodedCall = Option.some d ∧ text = proposal_text d ∧
            strIn (pyLower k) (pyLower (proposal_text d)) = true) := by
  intro refs
  induction refs with
  | nil =>
    intro k i text
    simp [keyword_matches]
  | cons r rs ih =>
    intro k i text
    rw [keyword_matches_cons, List.mem_append, ih]
    cases hd : r.decodedCall with
    | none =>
      constructor
      · rintro (h | ⟨hk, r2, hr2, rest⟩)
        · cases h
        · exact ⟨hk, r2, List.mem_cons_of_mem _ hr2, rest⟩
      · rintro ⟨hk, r2, hr2, hidx, d, hd2, rest⟩
        rcases List.mem_cons.mp hr2 with rfl | hr3
        · rw [hd] at hd2; cases hd2
        · exact Or.inr ⟨hk, r2, hr3, hidx, d, hd2, rest⟩
    | some d =>
      constructor
      · rintro (h | ⟨hk, r2, hr2, rest⟩)
        · rw [List.mem_filterMap] at h
          obtain ⟨k2, hk2, hif⟩ := h
          by_cases hs : strIn (pyLower k2) (pyLower (proposal_text d)) = true
          · rw [if_pos hs] at hif
            injection hif with hif
            rw [KeywordMatch.mk.injEq] at hif
            obtain ⟨h1, h2, h3⟩ := hif
            rw [← h1]
            exact ⟨hk2, r, List.mem_cons_self r rs, h2, d, hd, h3.symm, hs⟩
          · rw [if_neg hs] at hif; cases hif
        · exact ⟨hk, r2, List.mem_cons_of_mem _ hr2, rest⟩
      · rintro ⟨hk, r2, hr2, hidx, d2, hd2, htext, hstr⟩
        rcases List.mem_cons.mp hr2 with rfl | hr3
        · left
          rw [List.mem_filterMap]
          refine ⟨k, hk, ?_⟩
          rw [hd] at hd2
          injection hd2 with hdd
          rw [← hdd] at hstr htext
          rw [if_pos hstr, htext, hidx, hdd]
        · exact Or.inr ⟨hk, r2, hr3, hidx, d2, hd2, htext, hstr⟩

/-! ## The claims -/

/-- C1: for every non-pinned topic whose `last_posted_at` is a nonempty
string that parses, the computed heat score equals
`views*0.3 + posts_count*5*0.5 + posts_count*recency_factor*0.2` with
`recency_factor = max(1, 30 - days_since_last_post) / 30` and
`days_since_last_post = (now - last_posted_at) / 86400`; in particular
views 1000, posts 20 and last activity 5 days ago give recency `25/30`
and heat `1060/3` (approximately 353.33). -/
theorem hot_topic_heat_score (parse : String → Option PyDateTime) (now : ℚ)
    (t : Topic) (s : String) (dt : PyDateTime) (hpin : t.pinned = false)
    (hlast : t.last_posted_at = PyVal.str s) (hne : s ≠ "")
    (hp : parse (pyReplaceZ s) = Option.some dt) :
    ∃ e, topicEntry parse now t = .ok e ∧
      e.heat_score = t.views * (3 / 10) + t.posts_count * 5 * (1 / 2) +
        t.posts_count * (max 1 (30 - (now - dt.ts) / 86400) / 30) * (1 / 5) ∧
      (t.views = 1000 → t.posts_count = 20 → now - dt.ts = 5 * 86400 →
        max 1 (30 - (now - dt.ts) / 86400) / 30 = 25 / 30 ∧
          e.heat_score = 1060 / 3) := by
  have hrb : recency_boost parse now t.last_posted_at =
      .ok (recency_factor ((now - dt.ts) / 86400)) := by
    rw [hlast]
    simp only [recency_boost, if_neg hne, hp]
  refine ⟨{ id := t.id, title := t.title, views := t.views,
            posts_count := t.posts_count, last_posted_at := t.last_posted_at,
            created_at := t.created_at,
            heat_score := heat_formula t.views t.posts_count
              (recency_factor ((now - dt.ts) / 86400)),
            url := "https://forum.polkadot.network/t/" ++ toString t.id },
    ?_, ?_, ?_⟩
  · rw [topicEntry, hrb]; rfl
  · rfl
  · intro hv hpn hnow
    have h25 : max (1 : ℚ) (30 - (now - dt.ts) / 86400) = 25 := by
      rw [hnow]
      rw [max_eq_right] <;> norm_num
    constructor
    · rw [h25]
    · show heat_formula t.views t.posts_count
        (recency_factor ((now - dt.ts) / 86400)) = 1060 / 3
      rw [heat_formula, recency_factor, h25, hv, hpn]
      norm_num

/-- Witness for C1: a concrete topic with views 1000, posts 20, a
parsable timestamp 5 days before `now`. -/
theorem hot_topic_heat_score_witness :
    ∃ e, topicEntry
        (fun s => if s = "2026-01-07T00:00:00+00:00" then
            Option.some ⟨20460, 432000⟩ else Option.none) 864000
        { id := 7, title := "w", pinned := false, views := 1000,
          posts_count := 20, last_posted_at := PyVal.str "2026-01-07T00:00:00Z",
          created_at := "" } = .ok e ∧
      e.heat_score = 1000 * (3 / 10) + 20 * 5 * (1 / 2) +
        20 * (max 1 (30 - (864000 - 432000) / 86400) / 30) * (1 / 5) ∧
      ((1000 : ℤ) = 1000 → (20 : ℤ) = 20 → (864000 - 432000 : ℚ) = 5 * 86400 →
        max (1 : ℚ) (30 - (864000 - 432000) / 86400) / 30 = 25 / 30 ∧
          e.heat_score = 1060 / 3) :=
  hot_topic_heat_score _ _ _ "2026-01-07T00:00:00Z" ⟨20460, 432000⟩ rfl rfl
    (by decide) rfl

/-- Counterexample for C2 as stated: `xcm` is allowlisted, is not a
stopword and is a token of the text `xcm`, yet its keyword count is `0`
(the length filter runs before the allowlist is consulted); and in the
scenario body the word `check` IS counted (it is not an NLTK stopword
and has length 5), while the claim says it is excluded. -/
theorem keyword_filter_claim_counterexample :
    ("xcm" : String) ∈ technical_terms ∧
      ("xcm" : String) ∉ nltk_stopwords ∧
      ("xcm" : String) ∈ tokensOf "xcm" ∧
      keywordCount "xcm" "xcm" = 0 ∧
      keywordCount (strip_html_tags scenario_body) "check" = 1 := by
  decide

/-- C2 (amended): a token is counted iff it is not a stopword AND has
length > 3 AND (it is allowlisted OR has length > 4); the allowlist
bypasses only the length-> 4 filter (length-4 allowlisted terms such as
`xcm` would need length 4, length-3 ones are dropped); in the scenario
body both `treasury` and `check` are counted. -/
theorem keyword_filter_amended (text w : String) :
    (w ∈ counted_keywords text ↔
      (w ∈ tokensOf text ∧ ¬ w ∈ nltk_stopwords ∧ 3 < w.length ∧
        (w ∈ technical_terms ∨ 4 < w.length))) ∧
    keywordCount (strip_html_tags scenario_body) "treasury" = 1 ∧
    keywordCount (strip_html_tags scenario_body) "check" = 1 := by
  refine ⟨?_, by decide, by decide⟩
  simp only [counted_keywords, filtered_tokens, List.mem_filter,
    decide_eq_true_eq]
  tauto

/-- Counterexample for C3 as stated: a topic whose `last_posted_at` is
the (truthy, non-string) integer `5` makes the scoring method raise
`AttributeError` past the boundary, because `int` has no `.replace` and
the `except` clause catches only `ValueError` and `TypeError`. -/
theorem recency_nonstring_raises :
    identify_hot_topics (fun _ => Option.none) 0
      [{ id := 1, title := "t", pinned := false, views := 0, posts_count := 0,
         last_posted_at := PyVal.int 5, created_at := "" }] =
      .error .attributeError := rfl

/-- C3 (amended): a missing (`null`), empty, falsy or unparsable-STRING
`last_posted_at` receives the fixed neutral recency factor `0.5`, still
yields a heat score computed with that factor, and raises nothing; a
truthy non-string value, however, raises `AttributeError` (see the
counterexample). -/
theorem recency_fail_soft_amended (parse : String → Option PyDateTime)
    (now : ℚ) (t : Topic)
    (h : t.last_posted_at = PyVal.none ∨ t.last_posted_at = PyVal.str "" ∨
      t.last_posted_at = PyVal.int 0 ∨
      ∃ s, t.last_posted_at = PyVal.str s ∧ parse (pyReplaceZ s) = Option.none) :
    recency_boost parse now t.last_posted_at = .ok (1 / 2) ∧
      topicEntry parse now t =
        .ok { id := t.id, title := t.title, views := t.views,
              posts_count := t.posts_count, last_posted_at := t.last_posted_at,
              created_at := t.created_at,
              heat_score := heat_formula t.views t.posts_count (1 / 2),
              url := "https://forum.polkadot.network/t/" ++ toString t.id } := by
  have hrb : recency_boost parse now t.last_posted_at = .ok (1 / 2) := by
    rcases h with h | h | h | ⟨s, hs, hp⟩
    · rw [h]; rfl
    · rw [h]; rfl
    · rw [h]; rfl
    · rw [hs]
      simp only [recency_boost]
      by_cases hse : s = ""
      · rw [if_pos hse]
      · rw [if_neg hse, hp]
  exact ⟨hrb, by rw [topicEntry, hrb]; rfl⟩

/-- Witness for C3 (amended): a topic with `last_posted_at = null`. -/
theorem recency_fail_soft_amended_witness :
    recency_boost (fun _ => Option.none) 0 PyVal.none = .ok (1 / 2) ∧
      topicEntry (fun _ => Option.none) 0
          { id := 1, title := "t", pinned := false, views := 3, posts_count := 4,
            last_posted_at := PyVal.none, created_at := "c" } =
        .ok { id := 1, title := "t", views := 3, posts_count := 4,
              last_posted_at := PyVal.none, created_at := "c",
              heat_score := heat_formula 3 4 (1 / 2),
              url := "https://forum.polkadot.network/t/" ++ toString 1 } :=
  recency_fail_soft_amended (fun _ => Option.none) 0
    ⟨1, "t", false, 3, 4, PyVal.none, "c"⟩ (Or.inl rfl)

/-- Counterexample for C4 as stated: at `days_since_last_post = -30`
(a last activity 30 days in the future of `now`) the recency factor is
`2`, outside the claimed interval `[1/30, 1]`. -/
theorem recency_factor_range_counterexample :
    recency_factor (-30) = 2 ∧ ¬ recency_factor (-30) ≤ 1 := by
  have h : recency_factor (-30) = 2 := by
    unfold recency_factor
    rw [max_eq_right (by norm_num : (1 : ℚ) ≤ 30 - (-30))]
    norm_num
  exact ⟨h, by rw [h]; norm_num⟩

/-- C4 (amended): the recency factor is monotonically non-increasing in
`days_since_last_post` and floored at `1/30` for EVERY day count, but it
lies in `[1/30, 1]` only for non-negative day counts; for negative day
counts (future timestamps) it exceeds 1. -/
theorem recency_factor_monotone_amended (d e : ℚ) (h : d ≤ e) :
    recency_factor e ≤ recency_factor d ∧
      1 / 30 ≤ recency_factor d ∧ (0 ≤ d → recency_factor d ≤ 1) := by
  unfold recency_factor
  refine ⟨?_, ?_, ?_⟩
  · have : max 1 (30 - e) ≤ max 1 (30 - d) := max_le_max le_rfl (by linarith)
    linarith
  · have : (1 : ℚ) ≤ max 1 (30 - d) := le_max_left _ _
    linarith
  · intro hd
    have : max 1 (30 - d) ≤ 30 := max_le (by norm_num) (by linarith)
    linarith

/-- Witness for C4 (amended) at days 0 and 1. -/
theorem recency_factor_monotone_amended_witness :
    recency_factor 1 ≤ recency_factor 0 ∧ 1 / 30 ≤ recency_factor 0 ∧
      ((0 : ℚ) ≤ 0 → recency_factor 0 ≤ 1) :=
  recency_factor_monotone_amended 0 1 zero_le_one

/-- C5: a successful hot-topics list has at most 50 entries, is sorted
descending by heat score, draws every entry from a non-pinned input
topic, has only non-negative heat scores when all views and post counts
are non-negative, and keeps ties in original input order: restricted to
any one heat value it is a prefix of the entry list in input order. -/
theorem hot_topics_list_contract (parse : String → Option PyDateTime)
    (now : ℚ) (topics : List Topic) (l : List HotTopic)
    (h : identify_hot_topics parse now topics = .ok l) :
    l.length ≤ 50 ∧
    l.Sorted heatGE ∧
    (∀ e ∈ l, ∃ t ∈ topics, t.pinned = false ∧ topicEntry parse now t = .ok e) ∧
    ((∀ t ∈ topics, 0 ≤ t.views ∧ 0 ≤ t.posts_count) → ∀ e ∈ l, 0 ≤ e.heat_score) ∧
    (∀ entries, build_entries parse now (topics.filter (fun t => !t.pinned)) = .ok entries →
      ∀ q : ℚ, l.filter (fun e => e.heat_score = q) <+:
        entries.filter (fun e => e.heat_score = q)) := by
  rw [identify_hot_topics] at h
  by_cases htop : topics = []
  · rw [if_pos htop] at h
    simp only [Except.ok.injEq] at h
    rw [← h]
    refine ⟨by simp, by simp [List.Sorted], by simp, by simp, ?_⟩
    intro entries _ q
    simp only [List.filter_nil]
    exact List.nil_prefix
  · rw [if_neg htop] at h
    cases hbe : build_entries parse now (topics.filter (fun t => !t.pinned)) with
    | error err => rw [hbe] at h; simp only [Except.map] at h; cases h
    | ok entries =>
      rw [hbe] at h
      simp only [Except.map, Except.ok.injEq] at h
      have hmem : ∀ e ∈ l, ∃ t ∈ topics, t.pinned = false ∧
          topicEntry parse now t = .ok e := by
        intro e he
        rw [← h] at he
        have h1 : e ∈ entries.insertionSort heatGE := List.mem_of_mem_take he
        have h2 : e ∈ entries := (List.mem_insertionSort _).mp h1
        obtain ⟨t, ht, hte⟩ := build_entries_mem parse now _ entries hbe e h2
        refine ⟨t, List.mem_of_mem_filter ht, ?_, hte⟩
        have := List.of_mem_filter ht
        simpa using this
      refine ⟨?_, ?_, hmem, ?_, ?_⟩
      · rw [← h]; exact List.length_take_le 50 _
      · rw [← h]
        exact List.Pairwise.sublist (List.take_sublist _ _)
          (List.sorted_insertionSort _ _)
      · intro hnn e he
        obtain ⟨t, ht, _, hte⟩ := hmem e he
        obtain ⟨r, hrb, hheat, _, _⟩ := topicEntry_ok_heat parse now t e hte
        rw [hheat]
        exact heat_formula_nonneg _ _ _ (hnn t ht).1 (hnn t ht).2
          (le_of_lt (recency_boost_ok_pos parse now _ r hrb))
      · intro entries2 hbe2 q
        have hee : entries2 = entries := by
          injection hbe2 with hh
          exact hh.symm
        rw [hee, ← h]
        have htp := List.take_prefix 50 (entries.insertionSort heatGE)
        have hfp := htp.filter (fun e => decide (e.heat_score = q))
        rw [insertionSort_filter_key HotTopic.heat_score q entries] at hfp
        exact hfp

/-- Witness for C5 at the empty topic batch. -/
theorem hot_topics_list_contract_witness :
    ([] : List HotTopic).length ≤ 50 ∧
    ([] : List HotTopic).Sorted heatGE ∧
    (∀ e ∈ ([] : List HotTopic), ∃ t ∈ ([] : List Topic), t.pinned = false ∧
      topicEntry (fun _ => Option.none) 0 t = .ok e) ∧
    ((∀ t ∈ ([] : List Topic), 0 ≤ t.views ∧ 0 ≤ t.posts_count) →
      ∀ e ∈ ([] : List HotTopic), 0 ≤ e.heat_score) ∧
    (∀ entries, build_entries (fun _ => Option.none) 0
        (([] : List Topic).filter (fun t => !t.pinned)) = .ok entries →
      ∀ q : ℚ, ([] : List HotTopic).filter (fun e => e.heat_score = q) <+:
        entries.filter (fun e => e.heat_score = q)) :=
  hot_topics_list_contract (fun _ => Option.none) 0 [] [] rfl

/-- Counterexample for C6 as stated: with no mentions and the activity
records `alice` (first) then `bob` (second), both with influence 1, the
set iteration order `[bob, alice]` is legal (duplicate-free, exactly the
union of the key sets), yet the emitted list orders the tie `bob` before
`alice` — not in stable input order, but in set iteration order. -/
theorem influential_tie_order_counterexample :
    isSetEnum ["bob", "alice"] [] [("alice", 1), ("bob", 1)] ∧
      identify_influential_users ["bob", "alice"] [] [("alice", 1), ("bob", 1)] =
        [⟨"bob", 0, 1, 1⟩, ⟨"alice", 0, 1, 1⟩] := by
  refine ⟨⟨by decide, ?_⟩, by decide⟩
  intro u
  simp [List.mem_cons]
  tauto

/-- C6 (amended): every emitted user has
`influence_score = mention_count * 3 + post_count > 0` with the counts
looked up in the mention and activity counters; every username with a
positive score yields a candidate; the list is sorted descending by
influence score and truncated to 50; ties follow the (implementation
defined) set iteration order, not the input order. -/
theorem influential_users_amended (enum : List String)
    (ms as_ : List (String × ℕ)) (l : List InfluentialUser)
    (he : isSetEnum enum ms as_)
    (hl : identify_influential_users enum ms as_ = l) :
    l.length ≤ 50 ∧
    l.Sorted influenceGE ∧
    (∀ e ∈ l, e.mention_count = counterGet ms e.username ∧
      e.post_count = counterGet as_ e.username ∧
      e.influence_score = e.mention_count * 3 + e.post_count ∧
      0 < e.influence_score) ∧
    (∀ u, 0 < counterGet ms u * 3 + counterGet as_ u →
      ∃ e ∈ influential_candidates enum ms as_, e.username = u) ∧
    (∀ s : ℕ, l.filter (fun e => e.influence_score = s) <+:
      (influential_candidates enum ms as_).filter
        (fun e => e.influence_score = s)) := by
  rw [identify_influential_users] at hl
  refine ⟨?_, ?_, ?_, ?_, ?_⟩
  · rw [← hl]; exact List.length_take_le 50 _
  · rw [← hl]
    exact List.Pairwise.sublist (List.take_sublist _ _)
      (List.sorted_insertionSort _ _)
  · intro e hel
    rw [← hl] at hel
    have h1 : e ∈ (influential_candidates enum ms as_).insertionSort influenceGE :=
      List.mem_of_mem_take hel
    have h2 : e ∈ influential_candidates enum ms as_ :=
      (List.mem_insertionSort _).mp h1
    rw [influential_candidates, List.mem_filterMap] at h2
    obtain ⟨u, _, hu⟩ := h2
    simp only at hu
    split at hu
    · injection hu with hu
      rw [← hu]
      exact ⟨rfl, rfl, rfl, by assumption⟩
    · cases hu
  · intro u hpos
    have hun : u ∈ enum := by
      have : 0 < counterGet ms u ∨ 0 < counterGet as_ u := by omega
      rcases this with h | h
      · exact (he.2 u).mpr (Or.inl (counterGet_pos_mem ms u h))
      · exact (he.2 u).mpr (Or.inr (counterGet_pos_mem as_ u h))
    refine ⟨⟨u, counterGet ms u, counterGet as_ u,
      counterGet ms u * 3 + counterGet as_ u⟩, ?_, rfl⟩
    rw [influential_candidates, List.mem_filterMap]
    exact ⟨u, hun, by simp only; rw [if_pos hpos]⟩
  · intro s
    rw [← hl]
    have htp := List.take_prefix 50
      ((influential_candidates enum ms as_).insertionSort influenceGE)
    have hfp := htp.filter (fun e => decide (e.influence_score = s))
    rw [insertionSort_filter_key InfluentialUser.influence_score s] at hfp
    exact hfp

/-- Witness for C6 (amended) at the empty counters. -/
theorem influential_users_amended_witness :
    ([] : List InfluentialUser).length ≤ 50 ∧
    ([] : List InfluentialUser).Sorted influenceGE ∧
    (∀ e ∈ ([] : List InfluentialUser),
      e.mention_count = counterGet [] e.username ∧
      e.post_count = counterGet [] e.username ∧
      e.influence_score = e.mention_count * 3 + e.post_count ∧
      0 < e.influence_score) ∧
    (∀ u, 0 < counterGet [] u * 3 + counterGet [] u →
      ∃ e ∈ influential_candidates [] [] [], e.username = u) ∧
    (∀ s : ℕ, ([] : List InfluentialUser).filter (fun e => e.influence_score = s) <+:
      (influential_candidates [] [] []).filter (fun e => e.influence_score = s)) :=
  influential_users_amended [] [] [] [] ⟨List.nodup_nil, fun u => by simp⟩ rfl

/-- C7: the timeline aggregator returns the unavailability marker
(`None`) exactly when no post carries a valid timestamp — including the
empty post batch — and otherwise one `(day, count)` pair per calendar
day with at least one validly-timestamped post, strictly ascending by
day; posts with missing or unparsable `created_at` are silently
excluded (they contribute nothing to `post_valid_days`). -/
theorem activity_timeline_contract (parse : String → Option PyDateTime)
    (posts : List Post) :
    analyze_activity_timeline parse [] = Option.none ∧
    (analyze_activity_timeline parse posts = Option.none ↔
      post_valid_days parse posts = []) ∧
    (∀ l, analyze_activity_timeline parse posts = Option.some l →
      (l.map Prod.fst).Sorted (· < ·) ∧
        ∀ d c, (d, c) ∈ l ↔
          (c = (post_valid_days parse posts).count d ∧ c ≠ 0)) := by
  refine ⟨rfl, ?_, ?_⟩
  · by_cases hp : posts = []
    · subst hp
      simp [analyze_activity_timeline, post_valid_days]
    · rw [analyze_activity_timeline, if_neg hp]
      by_cases hds : post_valid_days parse posts = []
      · simp [hds]
      · simp [hds]
  · intro l hl
    by_cases hp : posts = []
    · subst hp; cases hl
    · rw [analyze_activity_timeline, if_neg hp] at hl
      by_cases hds : post_valid_days parse posts = []
      · rw [if_pos hds] at hl; cases hl
      · rw [if_neg hds] at hl
        injection hl with hl
        have hnd : ((post_valid_days parse posts).dedup.insertionSort
            (· ≤ ·)).Nodup :=
          (List.perm_insertionSort (· ≤ ·) _).symm.nodup
            (List.nodup_dedup (post_valid_days parse posts))
        have hsorted : ((post_valid_days parse posts).dedup.insertionSort
            (· ≤ ·)).Sorted (· ≤ ·) := List.sorted_insertionSort _ _
        constructor
        · rw [← hl, List.map_map]
          have hmapid : (Prod.fst ∘ fun d =>
              (d, (post_valid_days parse posts).count d)) = id := rfl
          rw [hmapid, List.map_id]
          exact hsorted.lt_of_le hnd
        · intro d c
          rw [← hl, List.mem_map]
          constructor
          · rintro ⟨d2, hd2, hdc⟩
            have hd3 : d2 ∈ post_valid_days parse posts :=
              List.mem_dedup.mp ((List.mem_insertionSort _).mp hd2)
            injection hdc with h1 h2
            rw [← h1, ← h2]
            exact ⟨rfl, Nat.pos_iff_ne_zero.mp (List.count_pos_iff.mpr hd3)⟩
          · rintro ⟨hc, hne⟩
            have hd3 : d ∈ post_valid_days parse posts := by
              rw [← List.count_pos_iff]
              omega
            refine ⟨d, ?_, by rw [hc]⟩
            exact (List.mem_insertionSort _).mpr (List.mem_dedup.mpr hd3)

/-- C8: the correlation matcher emits exactly the (keyword, proposal)
pairs whose lowercased keyword is a substring of the lowercased composed
proposal text of a referendum with a decoded call; the match set is a
function of the inputs alone (it is characterized by the membership
equivalence), an empty keyword list yields no matches, and an empty
match set renders the explicit no-correlation sentence rather than an
error. -/
theorem keyword_correlation_contract (keywords : List String)
    (refs : List Referendum) :
    (∀ k i text, (⟨k, i, text⟩ : KeywordMatch) ∈ keyword_matches keywords refs ↔
      (k ∈ keywords ∧ ∃ r ∈ refs, r.index = i ∧
        ∃ d, r.decodedCall = Option.some d ∧ text = proposal_text d ∧
          strIn (pyLower k) (pyLower (proposal_text d)) = true)) ∧
    keyword_matches [] refs = [] ∧
    (keyword_matches keywords refs = [] →
      keyword_correlation_report (keyword_matches keywords refs) =
        "No trending keyword was found in active governance proposals.\n") := by
  refine ⟨fun k i text => keyword_matches_mem keywords refs k i text,
    keyword_matches_nil_left refs, ?_⟩
  intro h
  rw [h]
  rfl

/-- Counterexample for C9 as stated: the same topic and post batch
analyzed at `now = 0` and at `now = 3456000` (40 days later) produces
different analysis results — the derived entities depend on when the
run executes, through `datetime.now()` in the recency boost and in the
`analysis_date` metric. -/
theorem analyze_time_counterexample :
    analyze (fun _ => Option.some ⟨0, 0⟩) 0 ["u"]
      [{ id := 1, title := "t", pinned := false, views := 1000,
         posts_count := 20, last_posted_at := PyVal.str "x", created_at := "" }]
      [{ username := Option.some "u", cooked := "", created_at := Option.none }] ≠
    analyze (fun _ => Option.some ⟨0, 0⟩) 3456000 ["u"]
      [{ id := 1, title := "t", pinned := false, views := 1000,
         posts_count := 20, last_posted_at := PyVal.str "x", created_at := "" }]
      [{ username := Option.some "u", cooked := "", created_at := Option.none }] := by
  intro h
  have hd := congrArg
    (fun x => match x with
      | Except.ok (Option.some r) => r.analysis_date
      | _ => (37 : ℚ)) h
  simp only [analyze, identify_hot_topics, build_entries, topicEntry,
    recency_boost, Except.map, analyze_activity_timeline, post_valid_days,
    List.insertionSort, List.orderedInsert, List.take] at hd
  have hx : ¬ ("x" : String) = "" := by decide
  rw [if_neg hx] at hd
  rw [if_neg hx] at hd
  norm_num at hd

/-- C9 (amended): every derived entity of a run is a pure function of
the input batch TOGETHER WITH the run timestamp `now` and the set
iteration order: two runs with identical topics, posts, iteration order
and timestamp produce identical output. -/
theorem analyze_determinism_amended (parse : String → Option PyDateTime)
    (enum : List String) (topics : List Topic) (posts : List Post)
    (now now2 : ℚ) (h : now = now2) :
    analyze parse now enum topics posts = analyze parse now2 enum topics posts := by
  rw [h]

/-- Witness for C9 (amended). -/
theorem analyze_determinism_amended_witness :
    analyze (fun _ => Option.none) 0 [] [] [] =
      analyze (fun _ => Option.none) 0 [] [] [] :=
  analyze_determinism_amended (fun _ => Option.none) [] [] [] 0 0 rfl

/-- C10: every token that enters the keyword counter has length at least
4 — tokens of length 3 or less never do, not even the allowlisted term
`xcm`, because the length-> 3 filter runs before the allowlist is
consulted. -/
theorem keyword_length_invariant (text w : String)
    (h : w ∈ counted_keywords text) :
    4 ≤ w.length ∧ ("xcm" : String) ∉ counted_keywords text := by
  constructor
  · have h2 := List.of_mem_filter (List.mem_of_mem_filter h)
    simp only [decide_eq_true_eq] at h2
    omega
  · intro hx
    have h2 := List.of_mem_filter (List.mem_of_mem_filter hx)
    simp only [decide_eq_true_eq] at h2
    have : ("xcm" : String).length = 3 := by decide
    omega

/-- Witness for C10 at a concrete text containing `treasury`. -/
theorem keyword_length_invariant_witness :
    4 ≤ ("treasury" : String).length ∧
      ("xcm" : String) ∉ counted_keywords "the treasury plan" :=
  keyword_length_invariant "the treasury plan" "treasury" (by decide)
